import Mathlib

/-!
Verification development for the zig-3270 TN3270 terminal-emulator core.

The repository ships the C interface header `include/zig3270.h` and a C
example program; the Zig implementation behind the declared functions is
not part of the sources.  Where a function's behaviour is needed, it is
modelled from the specification (doc comments below say so explicitly and
name the missing function); the declarations in the header (signatures,
enum values, documented return conventions) and the assertions of
`examples/c_example.c` are taken as the authority wherever they decide a
question.
-/

namespace Zig3270

/-- Error kinds of the specification (section 7), together with the
`OutOfBounds` and `IndexOutOfRange` names that sections 4.2 and 4.3 use for
screen bound violations and field-index misses. -/
inductive Err where
  | InvalidArgument
  | OutOfMemory
  | ConnectionFailed
  | ParseError
  | InvalidState
  | Timeout
  | FieldNotFound
  | BufferTooSmall
  | NotEncodable
  | OutOfBounds
  | IndexOutOfRange
  deriving DecidableEq, Repr

/-! ## EBCDIC codec -/

/-- Modelled from the spec: the body of `zig3270_ebcdic_decode_byte` is not
under `src/`.  The 256-entry EBCDIC→ASCII lookup table, reconstructed from
the spec's statements (standard EBCDIC code page; decode is total and maps
bytes without an equivalent to a defined non-printable substitute, here
0x1A) and its concrete scenarios, which the example program
`examples/c_example.c` also asserts: `0xC1 ↦ A`, and
`{0xC8,0x85,0x93,0x93,0x96} ↦ HELLO` — so the lower-case EBCDIC letter bank
0x81–0xA9 decodes to the UPPER-case ASCII letters. -/
def zig3270_ebcdic_decode_byte (e : Nat) : Nat :=
  match e with
  | 0x40 => 0x20
  | 0x4B => 0x2E
  | 0x4C => 0x3C
  | 0x4D => 0x28
  | 0x4E => 0x2B
  | 0x50 => 0x26
  | 0x5A => 0x21
  | 0x5B => 0x24
  | 0x5C => 0x2A
  | 0x5D => 0x29
  | 0x5E => 0x3B
  | 0x60 => 0x2D
  | 0x61 => 0x2F
  | 0x6B => 0x2C
  | 0x6C => 0x25
  | 0x6D => 0x5F
  | 0x6E => 0x3E
  | 0x6F => 0x3F
  | 0x7A => 0x3A
  | 0x7B => 0x23
  | 0x7C => 0x40
  | 0x7D => 0x27
  | 0x7E => 0x3D
  | 0x7F => 0x22
  | 0x81 => 0x41
  | 0x82 => 0x42
  | 0x83 => 0x43
  | 0x84 => 0x44
  | 0x85 => 0x45
  | 0x86 => 0x46
  | 0x87 => 0x47
  | 0x88 => 0x48
  | 0x89 => 0x49
  | 0x91 => 0x4A
  | 0x92 => 0x4B
  | 0x93 => 0x4C
  | 0x94 => 0x4D
  | 0x95 => 0x4E
  | 0x96 => 0x4F
  | 0x97 => 0x50
  | 0x98 => 0x51
  | 0x99 => 0x52
  | 0xA2 => 0x53
  | 0xA3 => 0x54
  | 0xA4 => 0x55
  | 0xA5 => 0x56
  | 0xA6 => 0x57
  | 0xA7 => 0x58
  | 0xA8 => 0x59
  | 0xA9 => 0x5A
  | 0xC1 => 0x41
  | 0xC2 => 0x42
  | 0xC3 => 0x43
  | 0xC4 => 0x44
  | 0xC5 => 0x45
  | 0xC6 => 0x46
  | 0xC7 => 0x47
  | 0xC8 => 0x48
  | 0xC9 => 0x49
  | 0xD1 => 0x4A
  | 0xD2 => 0x4B
  | 0xD3 => 0x4C
  | 0xD4 => 0x4D
  | 0xD5 => 0x4E
  | 0xD6 => 0x4F
  | 0xD7 => 0x50
  | 0xD8 => 0x51
  | 0xD9 => 0x52
  | 0xE2 => 0x53
  | 0xE3 => 0x54
  | 0xE4 => 0x55
  | 0xE5 => 0x56
  | 0xE6 => 0x57
  | 0xE7 => 0x58
  | 0xE8 => 0x59
  | 0xE9 => 0x5A
  | 0xF0 => 0x30
  | 0xF1 => 0x31
  | 0xF2 => 0x32
  | 0xF3 => 0x33
  | 0xF4 => 0x34
  | 0xF5 => 0x35
  | 0xF6 => 0x36
  | 0xF7 => 0x37
  | 0xF8 => 0x38
  | 0xF9 => 0x39
  | _ => 0x1A

/-- Modelled from the spec: the body of `zig3270_ebcdic_encode_byte` is not
under `src/`.  The ASCII→EBCDIC lookup table; the header documents the C
function as returning the EBCDIC byte or -1 on error, embedded here as
`Option Nat` with `none` for the error result.  The mapping follows the
standard code page pinned by the spec's scenarios (`WORLD ↦
{0xE6,0xD6,0xD9,0xD3,0xC4}`, `A ↦ 0xC1`): space, digits, upper-case
letters and the common punctuation set are encodable; every other byte
(lower-case letters included, since the decode table folds the lower-case
EBCDIC bank onto upper-case ASCII) has no EBCDIC equivalent. -/
def zig3270_ebcdic_encode_byte (a : Nat) : Option Nat :=
  match a with
  | 0x20 => some 0x40
  | 0x21 => some 0x5A
  | 0x22 => some 0x7F
  | 0x23 => some 0x7B
  | 0x24 => some 0x5B
  | 0x25 => some 0x6C
  | 0x26 => some 0x50
  | 0x27 => some 0x7D
  | 0x28 => some 0x4D
  | 0x29 => some 0x5D
  | 0x2A => some 0x5C
  | 0x2B => some 0x4E
  | 0x2C => some 0x6B
  | 0x2D => some 0x60
  | 0x2E => some 0x4B
  | 0x2F => some 0x61
  | 0x30 => some 0xF0
  | 0x31 => some 0xF1
  | 0x32 => some 0xF2
  | 0x33 => some 0xF3
  | 0x34 => some 0xF4
  | 0x35 => some 0xF5
  | 0x36 => some 0xF6
  | 0x37 => some 0xF7
  | 0x38 => some 0xF8
  | 0x39 => some 0xF9
  | 0x3A => some 0x7A
  | 0x3B => some 0x5E
  | 0x3C => some 0x4C
  | 0x3D => some 0x7E
  | 0x3E => some 0x6E
  | 0x3F => some 0x6F
  | 0x40 => some 0x7C
  | 0x41 => some 0xC1
  | 0x42 => some 0xC2
  | 0x43 => some 0xC3
  | 0x44 => some 0xC4
  | 0x45 => some 0xC5
  | 0x46 => some 0xC6
  | 0x47 => some 0xC7
  | 0x48 => some 0xC8
  | 0x49 => some 0xC9
  | 0x4A => some 0xD1
  | 0x4B => some 0xD2
  | 0x4C => some 0xD3
  | 0x4D => some 0xD4
  | 0x4E => some 0xD5
  | 0x4F => some 0xD6
  | 0x50 => some 0xD7
  | 0x51 => some 0xD8
  | 0x52 => some 0xD9
  | 0x53 => some 0xE2
  | 0x54 => some 0xE3
  | 0x55 => some 0xE4
  | 0x56 => some 0xE5
  | 0x57 => some 0xE6
  | 0x58 => some 0xE7
  | 0x59 => some 0xE8
  | 0x5A => some 0xE9
  | 0x5F => some 0x6D
  | _ => none

/-- The substitute byte that `zig3270_ebcdic_decode_byte` produces for an
EBCDIC byte with no ASCII equivalent (ASCII SUB, a non-printable
placeholder, per the spec's "defined substitute" requirement). -/
def substituteByte : Nat := 0x1A

/-- The ASCII bytes the encode table maps (its domain), listed explicitly:
space, the punctuation of the standard set, the digits, the upper-case
letters, and underscore. -/
def encodableAscii : List Nat :=
  [0x20, 0x21, 0x22, 0x23, 0x24, 0x25, 0x26, 0x27, 0x28, 0x29,
   0x2A, 0x2B, 0x2C, 0x2D, 0x2E, 0x2F,
   0x30, 0x31, 0x32, 0x33, 0x34, 0x35, 0x36, 0x37, 0x38, 0x39,
   0x3A, 0x3B, 0x3C, 0x3D, 0x3E, 0x3F, 0x40,
   0x41, 0x42, 0x43, 0x44, 0x45, 0x46, 0x47, 0x48, 0x49,
   0x4A, 0x4B, 0x4C, 0x4D, 0x4E, 0x4F, 0x50, 0x51, 0x52,
   0x53, 0x54, 0x55, 0x56, 0x57, 0x58, 0x59, 0x5A, 0x5F]

/-- Boolean round-trip check for one ASCII byte: if it encodes, the encoded
byte decodes back to it, and re-encoding that decode yields the same
EBCDIC byte. -/
def asciiRoundTripOk (b : Nat) : Bool :=
  match zig3270_ebcdic_encode_byte b with
  | some e =>
      (zig3270_ebcdic_decode_byte e == b) &&
      (zig3270_ebcdic_encode_byte (zig3270_ebcdic_decode_byte e) == some e)
  | none => true

set_option maxRecDepth 4096 in
theorem asciiRoundTripOk_all : ∀ b, b < 256 → asciiRoundTripOk b = true := by
  decide

/-- The EBCDIC bytes the decode table maps to a real ASCII character (its
explicit domain); every byte outside this list decodes to the substitute. -/
def decodableEbcdic : List Nat :=
  [0x40, 0x4B, 0x4C, 0x4D, 0x4E, 0x50, 0x5A, 0x5B, 0x5C, 0x5D, 0x5E,
   0x60, 0x61, 0x6B, 0x6C, 0x6D, 0x6E, 0x6F,
   0x7A, 0x7B, 0x7C, 0x7D, 0x7E, 0x7F,
   0x81, 0x82, 0x83, 0x84, 0x85, 0x86, 0x87, 0x88, 0x89,
   0x91, 0x92, 0x93, 0x94, 0x95, 0x96, 0x97, 0x98, 0x99,
   0xA2, 0xA3, 0xA4, 0xA5, 0xA6, 0xA7, 0xA8, 0xA9,
   0xC1, 0xC2, 0xC3, 0xC4, 0xC5, 0xC6, 0xC7, 0xC8, 0xC9,
   0xD1, 0xD2, 0xD3, 0xD4, 0xD5, 0xD6, 0xD7, 0xD8, 0xD9,
   0xE2, 0xE3, 0xE4, 0xE5, 0xE6, 0xE7, 0xE8, 0xE9,
   0xF0, 0xF1, 0xF2, 0xF3, 0xF4, 0xF5, 0xF6, 0xF7, 0xF8, 0xF9]

instance {α : Type} [DecidableEq α] : DecidableEq (Except Err α) := fun x y =>
  match x, y with
  | Except.ok a, Except.ok b => decidable_of_iff (a = b) (by simp)
  | Except.ok _, Except.error _ => isFalse (by simp)
  | Except.error _, Except.ok _ => isFalse (by simp)
  | Except.error d, Except.error e => decidable_of_iff (d = e) (by simp)

/-- The single-byte encode operation wrapped in the spec's error
vocabulary: a byte outside the table fails with `NotEncodable`. -/
def encodeByteChecked (a : Nat) : Except Err Nat :=
  match zig3270_ebcdic_encode_byte a with
  | some e => Except.ok e
  | none => Except.error Err.NotEncodable

/-- Modelled from the spec: the body of `zig3270_ebcdic_decode` is not
under `src/`.  The caller's output buffer is passed in and returned
explicitly: when its capacity is at least the input length the first
`input.length` bytes are replaced by the element-wise translation and the
rest are kept; otherwise the call fails with `BufferTooSmall` and the
buffer comes back untouched (the spec's all-or-nothing requirement). -/
def zig3270_ebcdic_decode (input outbuf : List Nat) :
    List Nat × Except Err Nat :=
  if outbuf.length < input.length then (outbuf, Except.error Err.BufferTooSmall)
  else (input.map zig3270_ebcdic_decode_byte ++ outbuf.drop input.length,
        Except.ok input.length)

/-- Element-wise encoding of a whole buffer: `none` as soon as any byte has
no EBCDIC equivalent. -/
def encodeList : List Nat → Option (List Nat)
  | [] => some []
  | a :: as =>
    match zig3270_ebcdic_encode_byte a, encodeList as with
    | some e, some es => some (e :: es)
    | _, _ => none

/-- Modelled from the spec: the body of `zig3270_ebcdic_encode` is not
under `src/`.  Same buffer convention as `zig3270_ebcdic_decode`; the
capacity check comes first, and a non-encodable input byte fails the whole
call with `NotEncodable`, leaving the output buffer untouched. -/
def zig3270_ebcdic_encode (input outbuf : List Nat) :
    List Nat × Except Err Nat :=
  if outbuf.length < input.length then (outbuf, Except.error Err.BufferTooSmall)
  else
    match encodeList input with
    | some out => (out ++ outbuf.drop input.length, Except.ok input.length)
    | none => (outbuf, Except.error Err.NotEncodable)

theorem encodeList_length {input enc : List Nat}
    (h : encodeList input = some enc) : enc.length = input.length := by
  induction input generalizing enc with
  | nil =>
    simp only [encodeList, Option.some.injEq] at h
    subst h; rfl
  | cons a as ih =>
    simp only [encodeList] at h
    cases ha : zig3270_ebcdic_encode_byte a with
    | none => rw [ha] at h; simp at h
    | some e =>
      rw [ha] at h
      cases hs : encodeList as with
      | none => rw [hs] at h; simp at h
      | some es =>
        rw [hs] at h
        simp only [Option.some.injEq] at h
        subst h
        simp [ih hs]

theorem encodeList_get? {input enc : List Nat}
    (h : encodeList input = some enc) (i : Nat) :
    enc.get? i = (input.get? i).bind zig3270_ebcdic_encode_byte := by
  induction input generalizing enc i with
  | nil =>
    simp only [encodeList, Option.some.injEq] at h
    subst h; simp
  | cons a as ih =>
    simp only [encodeList] at h
    cases ha : zig3270_ebcdic_encode_byte a with
    | none => rw [ha] at h; simp at h
    | some e =>
      rw [ha] at h
      cases hs : encodeList as with
      | none => rw [hs] at h; simp at h
      | some es =>
        rw [hs] at h
        simp only [Option.some.injEq] at h
        subst h
        cases i with
        | zero => simp [ha]
        | succ i => simpa using ih hs i

/-- C2 (confirmed, spec-modelled): the buffer-form codec operations map
element-wise, preserving length and order; they fail with `BufferTooSmall`
exactly when the output capacity is below the input length; on any failure
the output buffer comes back untouched (all-or-nothing). -/
theorem c2_buffer_codec (input outbuf : List Nat) :
    ((zig3270_ebcdic_decode input outbuf).2 = Except.error Err.BufferTooSmall ↔
       outbuf.length < input.length) ∧
    ((zig3270_ebcdic_encode input outbuf).2 = Except.error Err.BufferTooSmall ↔
       outbuf.length < input.length) ∧
    (outbuf.length < input.length →
       zig3270_ebcdic_decode input outbuf = (outbuf, Except.error Err.BufferTooSmall) ∧
       zig3270_ebcdic_encode input outbuf = (outbuf, Except.error Err.BufferTooSmall)) ∧
    (input.length ≤ outbuf.length →
       (zig3270_ebcdic_decode input outbuf).2 = Except.ok input.length ∧
       (zig3270_ebcdic_decode input outbuf).1.length = outbuf.length ∧
       (∀ i, i < input.length →
          (zig3270_ebcdic_decode input outbuf).1.get? i =
            (input.get? i).map zig3270_ebcdic_decode_byte) ∧
       (∀ i, input.length ≤ i →
          (zig3270_ebcdic_decode input outbuf).1.get? i = outbuf.get? i)) ∧
    (input.length ≤ outbuf.length → ∀ enc, encodeList input = some enc →
       zig3270_ebcdic_encode input outbuf =
         (enc ++ outbuf.drop input.length, Except.ok input.length) ∧
       enc.length = input.length ∧
       (∀ i, i < input.length →
          enc.get? i = (input.get? i).bind zig3270_ebcdic_encode_byte)) ∧
    (input.length ≤ outbuf.length → encodeList input = none →
       zig3270_ebcdic_encode input outbuf = (outbuf, Except.error Err.NotEncodable)) := by
  by_cases h : outbuf.length < input.length
  · refine ⟨by simp [zig3270_ebcdic_decode, h], ?_,
      fun _ => ⟨by simp [zig3270_ebcdic_decode, h], by simp [zig3270_ebcdic_encode, h]⟩,
      fun h' => absurd h (by omega), fun h' => absurd h (by omega),
      fun h' => absurd h (by omega)⟩
    simp only [zig3270_ebcdic_encode, if_pos h]
    simp [h]
  · have h' : input.length ≤ outbuf.length := by omega
    refine ⟨by simp [zig3270_ebcdic_decode, h], ?_, fun hc => absurd hc h,
      fun _ => ⟨by simp [zig3270_ebcdic_decode, h], ?_, ?_, ?_⟩,
      fun _ enc henc => ⟨by simp [zig3270_ebcdic_encode, h, henc],
        encodeList_length henc, fun i _ => encodeList_get? henc i⟩,
      fun _ henc => by simp [zig3270_ebcdic_encode, h, henc]⟩
    · simp only [zig3270_ebcdic_encode, if_neg h]
      cases henc : encodeList input <;> simp [henc] <;> omega
    · simp only [zig3270_ebcdic_decode, if_neg h]
      simp [List.length_drop]
      omega
    · intro i hi
      simp only [zig3270_ebcdic_decode, if_neg h]
      rw [List.get?_append (by simpa using hi), List.get?_map]
    · intro i hi
      simp only [zig3270_ebcdic_decode, if_neg h]
      rw [List.get?_append_right (by simpa using hi), List.get?_drop]
      congr 1
      simp
      omega

theorem c2_buffer_codec_witness :
    (zig3270_ebcdic_decode [0x40] [] = ([], Except.error Err.BufferTooSmall) ∧
     zig3270_ebcdic_encode [0x40] [] = ([], Except.error Err.BufferTooSmall)) ∧
    (zig3270_ebcdic_decode [0xC8, 0x85, 0x93, 0x93, 0x96] [0, 0, 0, 0, 0]).2 =
      Except.ok 5 ∧
    zig3270_ebcdic_encode [0x57, 0x4F, 0x52, 0x4C, 0x44] [0, 0, 0, 0, 0] =
      ([0xE6, 0xD6, 0xD9, 0xD3, 0xC4] ++
        List.drop 5 [0, 0, 0, 0, 0], Except.ok 5) :=
  ⟨(c2_buffer_codec [0x40] []).2.2.1 (by decide),
   ((c2_buffer_codec [0xC8, 0x85, 0x93, 0x93, 0x96] [0, 0, 0, 0, 0]).2.2.2.1
      (by decide)).1,
   ((c2_buffer_codec [0x57, 0x4F, 0x52, 0x4C, 0x44] [0, 0, 0, 0, 0]).2.2.2.2.1
      (by decide) [0xE6, 0xD6, 0xD9, 0xD3, 0xC4] (by decide)).1⟩

/-- C1 (counterexample): the claim that decode and encode are inverse on
every EBCDIC byte with an ASCII equivalent fails at byte 0x93.  The spec's
own concrete scenario (and the assertion in `examples/c_example.c`) pins
`decode 0x93 = L` (0x4C) — a genuine ASCII equivalent, not the substitute
— while the spec's WORLD scenario pins `encode L = 0xD3`; hence
`encode (decode 0x93) = 0xD3 ≠ 0x93`. -/
theorem c1_counterexample :
    zig3270_ebcdic_decode_byte 0x93 = 0x4C ∧
    zig3270_ebcdic_decode_byte 0x93 ≠ substituteByte ∧
    zig3270_ebcdic_encode_byte (zig3270_ebcdic_decode_byte 0x93) = some 0xD3 ∧
    ¬ zig3270_ebcdic_encode_byte (zig3270_ebcdic_decode_byte 0x93) = some 0x93 := by
  decide

/-- C1 (amended): the two translation tables are exact inverses on the
encodable subset: for every ASCII byte `b` that has an EBCDIC equivalent
`e = encodeByte b`, decoding gives `b` back, and re-encoding that decode
gives `e` back.  The EBCDIC-side round trip holds on the image of the
encode table (not on every byte that decodes to a real character: the
lower-case EBCDIC letter bank decodes onto upper-case ASCII and re-encodes
to the upper-case bank, see the counterexample). -/
theorem c1_codec_round_trip (b e : Nat) (hb : b < 256)
    (he : zig3270_ebcdic_encode_byte b = some e) :
    zig3270_ebcdic_decode_byte e = b ∧
    zig3270_ebcdic_encode_byte (zig3270_ebcdic_decode_byte e) = some e := by
  have h := asciiRoundTripOk_all b hb
  unfold asciiRoundTripOk at h
  rw [he] at h
  simp only [Bool.and_eq_true, beq_iff_eq] at h
  exact h

theorem c1_codec_round_trip_witness :
    (0x57 : Nat) < 256 ∧ zig3270_ebcdic_encode_byte 0x57 = some 0xE6 ∧
    zig3270_ebcdic_decode_byte 0xE6 = 0x57 ∧
    zig3270_ebcdic_encode_byte (zig3270_ebcdic_decode_byte 0xE6) = some 0xE6 :=
  ⟨by decide, by decide,
   (c1_codec_round_trip 0x57 0xE6 (by decide) (by decide)).1,
   (c1_codec_round_trip 0x57 0xE6 (by decide) (by decide)).2⟩

/-- C3 (confirmed, spec-modelled): the single-byte decode is total over all
256 byte values and always yields a byte — a byte outside the mapped table
decodes to the substitute 0x1A rather than failing — while the single-byte
encode, wrapped in the spec's error vocabulary, fails with `NotEncodable`
exactly on the bytes outside the encodable set. -/
theorem c3_decode_total_encode_partial :
    (∀ e, e < 256 → zig3270_ebcdic_decode_byte e < 256) ∧
    (∀ e, e < 256 → e ∉ decodableEbcdic →
        zig3270_ebcdic_decode_byte e = substituteByte) ∧
    (∀ e, e ∈ decodableEbcdic → zig3270_ebcdic_decode_byte e ≠ substituteByte) ∧
    (∀ a, a < 256 → a ∉ encodableAscii →
        encodeByteChecked a = Except.error Err.NotEncodable) ∧
    (∀ a, a ∈ encodableAscii → (zig3270_ebcdic_encode_byte a).isSome = true) := by
  refine ⟨?_, ?_, ?_, ?_, ?_⟩ <;>
    · set_option maxRecDepth 8192 in decide

theorem c3_decode_total_encode_partial_witness :
    ((0x00 : Nat) < 256 ∧ zig3270_ebcdic_decode_byte 0x00 = substituteByte) ∧
    ((0x61 : Nat) < 256 ∧ encodeByteChecked 0x61 = Except.error Err.NotEncodable) ∧
    zig3270_ebcdic_decode_byte 0xC1 < 256 :=
  ⟨⟨by decide, c3_decode_total_encode_partial.2.1 0x00 (by decide) (by decide)⟩,
   ⟨by decide, c3_decode_total_encode_partial.2.2.2.1 0x61 (by decide) (by decide)⟩,
   c3_decode_total_encode_partial.1 0xC1 (by decide)⟩

/-! ## Screen buffer -/

/-- Screen state: 24×80 = 1920 character cells in row-major order plus a
cursor position, per the spec's data model. -/
structure zig3270_screen where
  cells : List Nat
  cursor : Nat
  deriving DecidableEq, Repr

/-- Modelled from the spec: a freshly created (or cleared) screen —
`zig3270_screen_new` / `zig3270_screen_clear` are not under `src/` — holds
1920 space characters with the cursor at position 0. -/
def screenInit : zig3270_screen :=
  { cells := List.replicate 1920 0x20, cursor := 0 }

/-- Sequential placement of text bytes at consecutive linear offsets,
wrapping past offset 1919 back to 0. -/
def writeCells (cells : List Nat) (pos : Nat) : List Nat → List Nat
  | [] => cells
  | t :: ts => writeCells (cells.set (pos % 1920) t) (pos + 1) ts

/-- Modelled from the spec: the body of `zig3270_screen_write` is not under
`src/`.  Bounds are validated before any mutation (`OutOfBounds`, the
screen returned untouched); inside bounds the text is placed starting at
linear offset `row*80 + col` with wraparound, never failing on length. -/
def zig3270_screen_write (s : zig3270_screen) (row col : Nat)
    (text : List Nat) : zig3270_screen × Option Err :=
  if 24 ≤ row ∨ 80 ≤ col then (s, some Err.OutOfBounds)
  else ({ s with cells := writeCells s.cells (row * 80 + col) text }, none)

/-- Modelled from the spec: the body of `zig3270_screen_read` is not under
`src/`.  Same bound check and the same wraparound rule as the write. -/
def zig3270_screen_read (s : zig3270_screen) (row col len : Nat) :
    Except Err (List Nat) :=
  if 24 ≤ row ∨ 80 ≤ col then Except.error Err.OutOfBounds
  else Except.ok ((List.range len).map fun i =>
    (s.cells.get? ((row * 80 + col + i) % 1920)).getD 0)

theorem writeCells_length (text : List Nat) :
    ∀ cells pos, (writeCells cells pos text).length = cells.length := by
  induction text with
  | nil => intro cells pos; rfl
  | cons t ts ih =>
    intro cells pos
    simp [writeCells, ih]

theorem writeCells_get?_untouched (text : List Nat) :
    ∀ cells pos o, (∀ j, j < text.length → (pos + j) % 1920 ≠ o) →
      (writeCells cells pos text).get? o = cells.get? o := by
  induction text with
  | nil => intro cells pos o _; rfl
  | cons t ts ih =>
    intro cells pos o ho
    have h0 : pos % 1920 ≠ o := by
      have := ho 0 (by simp)
      simpa using this
    rw [writeCells, ih (cells.set (pos % 1920) t) (pos + 1) o
      (fun j hj => by
        have := ho (j + 1) (by simp; omega)
        omega),
      List.get?_set_ne t cells h0]

theorem writeCells_get?_written (text : List Nat) :
    ∀ cells pos i, cells.length = 1920 → text.length ≤ 1920 →
      i < text.length →
      (writeCells cells pos text).get? ((pos + i) % 1920) = text.get? i := by
  induction text with
  | nil => intro cells pos i _ _ hi; exact absurd hi (by simp)
  | cons t ts ih =>
    intro cells pos i hcl hle hi
    cases i with
    | zero =>
      rw [Nat.add_zero, writeCells,
        writeCells_get?_untouched ts (cells.set (pos % 1920) t) (pos + 1)
          (pos % 1920)
          (fun j hj => by
            have hts : ts.length ≤ 1919 := by
              simpa using hle
            omega),
        List.get?_set_eq_of_lt t (by omega)]
      rfl
    | succ i =>
      have : pos + (i + 1) = (pos + 1) + i := by omega
      rw [this, writeCells]
      exact ih (cells.set (pos % 1920) t) (pos + 1) i
        (by simp [hcl]) (by simpa using Nat.le_of_succ_le hle)
        (by simpa using hi)

/-- C4 (confirmed, spec-modelled): for every valid start position, writing
places character `i` at linear offset `(row*80 + col + i) mod 1920` — the
screen is circular at the 1920-cell boundary — and the write never fails
because of the text's length; reading follows the same wraparound rule.
The per-index characterization carries the mathematically forced side
condition `text.length ≤ 1920` (beyond one full revolution later bytes
overwrite earlier ones, so no per-index statement can hold); the no-failure
part holds for texts of every length. -/
theorem c4_screen_wraparound (s : zig3270_screen) (row col : Nat)
    (text : List Nat) (hrow : row < 24) (hcol : col < 80)
    (hlen : s.cells.length = 1920) :
    (zig3270_screen_write s row col text).2 = none ∧
    (zig3270_screen_write s row col text).1.cells.length = 1920 ∧
    (text.length ≤ 1920 → ∀ i, i < text.length →
       (zig3270_screen_write s row col text).1.cells.get?
           ((row * 80 + col + i) % 1920) = text.get? i) ∧
    (∀ len, zig3270_screen_read s row col len =
       Except.ok ((List.range len).map fun i =>
         (s.cells.get? ((row * 80 + col + i) % 1920)).getD 0)) := by
  have hb : ¬(24 ≤ row ∨ 80 ≤ col) := by omega
  refine ⟨by simp [zig3270_screen_write, hb], ?_, ?_, ?_⟩
  · simp [zig3270_screen_write, hb, writeCells_length, hlen]
  · intro hle i hi
    simp only [zig3270_screen_write, if_neg hb]
    exact writeCells_get?_written text s.cells (row * 80 + col) i hlen hle hi
  · intro len
    simp [zig3270_screen_read, hb]

set_option maxRecDepth 16384 in
theorem c4_screen_wraparound_witness :
    ((zig3270_screen_write screenInit 23 78
        [0x48, 0x45, 0x4C, 0x4C, 0x4F]).1.cells.get?
        ((23 * 80 + 78 + 4) % 1920) =
      ([0x48, 0x45, 0x4C, 0x4C, 0x4F] : List Nat).get? 4) ∧
    ((zig3270_screen_write screenInit 23 78
        [0x48, 0x45, 0x4C, 0x4C, 0x4F]).1.cells.get?
        ((23 * 80 + 78 + 2) % 1920) =
      ([0x48, 0x45, 0x4C, 0x4C, 0x4F] : List Nat).get? 2) ∧
    (zig3270_screen_write screenInit 23 78
        [0x48, 0x45, 0x4C, 0x4C, 0x4F]).2 = none :=
  ⟨(c4_screen_wraparound screenInit 23 78 [0x48, 0x45, 0x4C, 0x4C, 0x4F]
      (by decide) (by decide) (by simp [screenInit])).2.2.1 (by decide) 4
      (by decide),
   (c4_screen_wraparound screenInit 23 78 [0x48, 0x45, 0x4C, 0x4C, 0x4F]
      (by decide) (by decide) (by simp [screenInit])).2.2.1 (by decide) 2
      (by decide),
   (c4_screen_wraparound screenInit 23 78 [0x48, 0x45, 0x4C, 0x4C, 0x4F]
      (by decide) (by decide) (by simp [screenInit])).1⟩

/-- C5 (confirmed, spec-modelled): a write with `row ≥ 24` or `col ≥ 80`
fails with `OutOfBounds` and returns the screen — buffer and cursor —
completely unchanged (bound checks precede any mutation), while an
in-bounds write of the empty text succeeds and also leaves the screen
unchanged. -/
theorem c5_screen_bound_checks (s : zig3270_screen) (row col : Nat)
    (text : List Nat) :
    ((24 ≤ row ∨ 80 ≤ col) →
       zig3270_screen_write s row col text = (s, some Err.OutOfBounds)) ∧
    (row < 24 → col < 80 →
       zig3270_screen_write s row col [] = (s, none)) := by
  constructor
  · intro hb
    simp [zig3270_screen_write, hb]
  · intro hr hc
    have hb : ¬(24 ≤ row ∨ 80 ≤ col) := by omega
    simp [zig3270_screen_write, hb, writeCells]

theorem c5_screen_bound_checks_witness :
    zig3270_screen_write screenInit 24 0 [0x78] =
      (screenInit, some Err.OutOfBounds) ∧
    zig3270_screen_write screenInit 0 80 [0x78] =
      (screenInit, some Err.OutOfBounds) ∧
    zig3270_screen_write screenInit 0 0 [] = (screenInit, none) :=
  ⟨(c5_screen_bound_checks screenInit 24 0 [0x78]).1 (by omega),
   (c5_screen_bound_checks screenInit 0 80 [0x78]).1 (by omega),
   (c5_screen_bound_checks screenInit 0 0 []).2 (by omega) (by omega)⟩

/-! ## Field table -/

/-- A field descriptor: screen offset, length in cells, and the raw
attribute byte (stored whole, reserved bits 4–7 included). -/
structure zig3270_field where
  offset : Nat
  len : Nat
  attr : Nat
  deriving DecidableEq, Repr

/-- The field manager: an ordered sequence of fields, insertion order
preserved, 0-based indexable. -/
structure zig3270_field_manager where
  fields : List zig3270_field
  deriving DecidableEq, Repr

/-- A freshly created, empty field manager. -/
def fieldsInit : zig3270_field_manager := { fields := [] }

/-- Modelled from the spec: the body of `zig3270_fields_add` is not under
`src/`.  Validates `offset < 1920` and `length ∈ [1,1920]`
(`InvalidArgument` otherwise, manager untouched), then appends the field —
attribute byte stored verbatim — to the ordered sequence. -/
def zig3270_fields_add (fm : zig3270_field_manager)
    (offset len attr : Nat) : zig3270_field_manager × Option Err :=
  if 1920 ≤ offset ∨ len = 0 ∨ 1920 < len then (fm, some Err.InvalidArgument)
  else ({ fields := fm.fields ++ [{ offset := offset, len := len, attr := attr }] },
        none)

/-- Modelled from the spec: `zig3270_fields_count` returns the current
number of fields. -/
def zig3270_fields_count (fm : zig3270_field_manager) : Nat :=
  fm.fields.length

/-- Modelled from the spec: the core `get(index) -> Field` of section 4.3,
failing with `IndexOutOfRange` when `index ≥ count()`. -/
def fieldsGetRecord (fm : zig3270_field_manager) (index : Nat) :
    Except Err zig3270_field :=
  match fm.fields.get? index with
  | some f => Except.ok f
  | none => Except.error Err.IndexOutOfRange

/-- The public C getter `zig3270_fields_get`: per the header's signature it
reports only the field's offset and length through its two out-parameters
(there is no attribute out-parameter).  The lookup behaviour is modelled
from the spec as in `fieldsGetRecord`. -/
def zig3270_fields_get (fm : zig3270_field_manager) (index : Nat) :
    Except Err (Nat × Nat) :=
  match fm.fields.get? index with
  | some f => Except.ok (f.offset, f.len)
  | none => Except.error Err.IndexOutOfRange

/-- C6 (confirmed, spec-modelled): a valid `add` succeeds, raises the count
by one, the new index returns the stored offset, length and attribute byte
preserved bit-for-bit (reserved bits 4–7 included), and `get` at any index
at or beyond the count fails with `IndexOutOfRange`. -/
theorem c6_field_table (fm : zig3270_field_manager) (offset len attr : Nat)
    (hoff : offset < 1920) (hlen1 : 1 ≤ len) (hlen2 : len ≤ 1920) :
    (zig3270_fields_add fm offset len attr).2 = none ∧
    zig3270_fields_count (zig3270_fields_add fm offset len attr).1 =
      zig3270_fields_count fm + 1 ∧
    fieldsGetRecord (zig3270_fields_add fm offset len attr).1
        (zig3270_fields_count fm) =
      Except.ok { offset := offset, len := len, attr := attr } ∧
    (∀ i, zig3270_fields_count (zig3270_fields_add fm offset len attr).1 ≤ i →
       fieldsGetRecord (zig3270_fields_add fm offset len attr).1 i =
         Except.error Err.IndexOutOfRange) := by
  have hb : ¬(1920 ≤ offset ∨ len = 0 ∨ 1920 < len) := by omega
  simp only [zig3270_fields_add, if_neg hb]
  refine ⟨trivial, by simp [zig3270_fields_count], ?_, ?_⟩
  · simp [fieldsGetRecord, zig3270_fields_count, List.get?_concat_length]
  · intro i hi
    simp only [zig3270_fields_count, List.length_append, List.length_cons,
      List.length_nil] at hi
    have hnone :
        (fm.fields ++
          [({ offset := offset, len := len, attr := attr } :
            zig3270_field)]).get? i = none :=
      List.get?_eq_none.mpr (by simp; omega)
    simp only [List.get?_eq_getElem?] at hnone
    simp [fieldsGetRecord, hnone]

theorem c6_field_table_witness :
    (zig3270_fields_add fieldsInit 100 10 0xF5).2 = none ∧
    zig3270_fields_count (zig3270_fields_add fieldsInit 100 10 0xF5).1 = 1 ∧
    fieldsGetRecord (zig3270_fields_add fieldsInit 100 10 0xF5).1 0 =
      Except.ok { offset := 100, len := 10, attr := 0xF5 } ∧
    fieldsGetRecord (zig3270_fields_add fieldsInit 100 10 0xF5).1 1 =
      Except.error Err.IndexOutOfRange :=
  ⟨(c6_field_table fieldsInit 100 10 0xF5 (by decide) (by decide) (by decide)).1,
   (c6_field_table fieldsInit 100 10 0xF5 (by decide) (by decide) (by decide)).2.1,
   (c6_field_table fieldsInit 100 10 0xF5 (by decide) (by decide) (by decide)).2.2.1,
   (c6_field_table fieldsInit 100 10 0xF5 (by decide) (by decide)
      (by decide)).2.2.2 1 (by decide)⟩

/-- C10 (confirmed, spec-modelled lookup; signature per the header): the
public getter `zig3270_fields_get` exposes only offset and length — two
managers whose fields agree on offsets and lengths but differ in attribute
bytes produce identical `get` results at every index. -/
theorem c10_get_hides_attribute (fm1 fm2 : zig3270_field_manager)
    (h : fm1.fields.map (fun f => (f.offset, f.len)) =
         fm2.fields.map (fun f => (f.offset, f.len))) :
    ∀ index, zig3270_fields_get fm1 index = zig3270_fields_get fm2 index := by
  intro index
  have h1 : ∀ fm : zig3270_field_manager, zig3270_fields_get fm index =
      match (fm.fields.map (fun f => (f.offset, f.len))).get? index with
      | some p => Except.ok p
      | none => Except.error Err.IndexOutOfRange := by
    intro fm
    unfold zig3270_fields_get
    rw [List.get?_map]
    cases fm.fields.get? index <;> rfl
  rw [h1 fm1, h1 fm2, h]

theorem c10_get_hides_attribute_witness :
    ({ fields := [{ offset := 100, len := 10, attr := 0x00 }] }
        : zig3270_field_manager) ≠
      { fields := [{ offset := 100, len := 10, attr := 0xF5 }] } ∧
    zig3270_fields_get
        { fields := [{ offset := 100, len := 10, attr := 0x00 }] } 0 =
      zig3270_fields_get
        { fields := [{ offset := 100, len := 10, attr := 0xF5 }] } 0 :=
  ⟨by decide,
   c10_get_hides_attribute
     { fields := [{ offset := 100, len := 10, attr := 0x00 }] }
     { fields := [{ offset := 100, len := 10, attr := 0xF5 }] }
     (by decide) 0⟩

/-! ## Connection / client state machine -/

/-- The spec's connection-state enum (section 4.4). -/
inductive ConnState where
  | Disconnected
  | Connecting
  | Connected
  | Disconnecting
  deriving DecidableEq, Repr

/-- Client state: the connection-state enum plus the internally buffered
unread response frame the spec requires for non-destructive
`BufferTooSmall` retries.  The socket itself is outside the shallow
embedding; its observable effect is carried by the operations' oracle
arguments. -/
structure zig3270_client where
  state : ConnState
  pending : Option (List Nat)
  deriving DecidableEq, Repr

/-- Modelled from the spec: the body of `zig3270_client_disconnect` is not
under `src/`.  Transitions (through `Disconnecting`, closing the socket)
to `Disconnected` and always succeeds, in every starting state. -/
def zig3270_client_disconnect (c : zig3270_client) :
    zig3270_client × Option Err :=
  ({ c with state := ConnState.Disconnected, pending := none }, none)

/-- Modelled from the spec: the body of `zig3270_client_send_command` is
not under `src/`.  Outside `Connected` it fails with `InvalidState`
touching nothing; inside `Connected` the socket write either completes
(`sockOk`, the oracle for the unmodelled socket) or fails with
`ConnectionFailed`, transitioning to `Disconnected`. -/
def zig3270_client_send_command (c : zig3270_client) (command : List Nat)
    (sockOk : Bool) : zig3270_client × Option Err :=
  if c.state ≠ ConnState.Connected then (c, some Err.InvalidState)
  else if sockOk then (c, none)
  else ({ c with state := ConnState.Disconnected, pending := none },
        some Err.ConnectionFailed)

/-- Modelled from the spec: the body of `zig3270_client_read_response` is
not under `src/`.  Outside `Connected` it fails with `InvalidState`; with
no pending frame the bounded wait elapses (`Timeout`, state kept); a
pending frame larger than the buffer capacity fails with `BufferTooSmall`
leaving the frame buffered and the client unchanged; otherwise the frame
is delivered and consumed. -/
def zig3270_client_read_response (c : zig3270_client) (cap : Nat) :
    zig3270_client × Except Err (List Nat) :=
  if c.state ≠ ConnState.Connected then (c, Except.error Err.InvalidState)
  else
    match c.pending with
    | none => (c, Except.error Err.Timeout)
    | some frame =>
      if cap < frame.length then (c, Except.error Err.BufferTooSmall)
      else ({ c with pending := none }, Except.ok frame)

/-- C7 (confirmed, spec-modelled): in every state other than `Connected`,
`sendCommand` and `readResponse` fail with `InvalidState` and leave the
client unchanged; `disconnect` succeeds in every state, always ends in
`Disconnected`, and is idempotent — a second consecutive call is a no-op
success, not an error. -/
theorem c7_state_machine (c : zig3270_client) (command : List Nat)
    (sockOk : Bool) (cap : Nat) :
    (c.state ≠ ConnState.Connected →
       zig3270_client_send_command c command sockOk =
         (c, some Err.InvalidState) ∧
       zig3270_client_read_response c cap =
         (c, Except.error Err.InvalidState)) ∧
    ((zig3270_client_disconnect c).2 = none ∧
     (zig3270_client_disconnect c).1.state = ConnState.Disconnected) ∧
    ((zig3270_client_disconnect ((zig3270_client_disconnect c).1)).2 = none ∧
     zig3270_client_disconnect ((zig3270_client_disconnect c).1) =
       zig3270_client_disconnect c) := by
  refine ⟨fun h => ⟨?_, ?_⟩, ⟨rfl, rfl⟩, rfl, rfl⟩
  · simp [zig3270_client_send_command, h]
  · simp [zig3270_client_read_response, h]

theorem c7_state_machine_witness :
    (zig3270_client_send_command
        { state := ConnState.Disconnected, pending := none } [0x01] true =
      ({ state := ConnState.Disconnected, pending := none },
        some Err.InvalidState)) ∧
    (zig3270_client_read_response
        { state := ConnState.Disconnected, pending := none } 64 =
      ({ state := ConnState.Disconnected, pending := none },
        Except.error Err.InvalidState)) ∧
    (zig3270_client_disconnect
        { state := ConnState.Disconnected, pending := none }).2 = none :=
  ⟨((c7_state_machine { state := ConnState.Disconnected, pending := none }
      [0x01] true 64).1 (by decide)).1,
   ((c7_state_machine { state := ConnState.Disconnected, pending := none }
      [0x01] true 64).1 (by decide)).2,
   (c7_state_machine { state := ConnState.Disconnected, pending := none }
      [0x01] true 64).2.1.1⟩

/-- C8 (confirmed, spec-modelled): a `readResponse` that fails with
`BufferTooSmall` neither consumes the pending frame nor changes the
connection state — the very next `readResponse` with a large enough buffer
succeeds and returns the same logical frame. -/
theorem c8_buffer_too_small_retry (c : zig3270_client) (frame : List Nat)
    (cap cap' : Nat) (hstate : c.state = ConnState.Connected)
    (hpend : c.pending = some frame) (hsmall : cap < frame.length)
    (hbig : frame.length ≤ cap') :
    zig3270_client_read_response c cap =
      (c, Except.error Err.BufferTooSmall) ∧
    zig3270_client_read_response ((zig3270_client_read_response c cap).1)
        cap' =
      ({ c with pending := none }, Except.ok frame) := by
  have h1 : zig3270_client_read_response c cap =
      (c, Except.error Err.BufferTooSmall) := by
    simp [zig3270_client_read_response, hstate, hpend, hsmall]
  refine ⟨h1, ?_⟩
  rw [h1]
  simp [zig3270_client_read_response, hstate, hpend]
  omega

theorem c8_buffer_too_small_retry_witness :
    (zig3270_client_read_response
        { state := ConnState.Connected, pending := some [0x01, 0x02, 0x03] }
        2 =
      ({ state := ConnState.Connected, pending := some [0x01, 0x02, 0x03] },
        Except.error Err.BufferTooSmall)) ∧
    (zig3270_client_read_response
        ((zig3270_client_read_response
          { state := ConnState.Connected, pending := some [0x01, 0x02, 0x03] }
          2).1) 8 =
      ({ state := ConnState.Connected, pending := none },
        Except.ok [0x01, 0x02, 0x03])) :=
  ⟨(c8_buffer_too_small_retry
      { state := ConnState.Connected, pending := some [0x01, 0x02, 0x03] }
      [0x01, 0x02, 0x03] 2 8 rfl rfl (by decide) (by decide)).1,
   (c8_buffer_too_small_retry
      { state := ConnState.Connected, pending := some [0x01, 0x02, 0x03] }
      [0x01, 0x02, 0x03] 2 8 rfl rfl (by decide) (by decide)).2⟩

/-! ## TN3270 command codes -/

/-- The command-code enum of `zig3270_command_code_t` in the header:
ten named commands. -/
inductive zig3270_command_code_t where
  | WRITE_STRUCTURED_FIELD
  | ERASE_WRITE
  | ERASE_WRITE_ALTERNATE
  | WRITE
  | ERASE_ALL_UNPROTECTED
  | READ_BUFFER
  | READ_MODIFIED
  | READ_MODIFIED_ALL
  | SEARCH_FOR_STRING
  | SELECTIVE_ERASE_WRITE
  deriving DecidableEq, Repr

/-- The numeric opcode each enumerator carries in the header. -/
def commandCodeValue : zig3270_command_code_t → Nat
  | zig3270_command_code_t.WRITE_STRUCTURED_FIELD => 0x01
  | zig3270_command_code_t.ERASE_WRITE => 0x05
  | zig3270_command_code_t.ERASE_WRITE_ALTERNATE => 0x0d
  | zig3270_command_code_t.WRITE => 0x01
  | zig3270_command_code_t.ERASE_ALL_UNPROTECTED => 0x0f
  | zig3270_command_code_t.READ_BUFFER => 0x02
  | zig3270_command_code_t.READ_MODIFIED => 0x06
  | zig3270_command_code_t.READ_MODIFIED_ALL => 0x6e
  | zig3270_command_code_t.SEARCH_FOR_STRING => 0x34
  | zig3270_command_code_t.SELECTIVE_ERASE_WRITE => 0x80

/-- All ten enumerators, in header order. -/
def commandCodes : List zig3270_command_code_t :=
  [zig3270_command_code_t.WRITE_STRUCTURED_FIELD,
   zig3270_command_code_t.ERASE_WRITE,
   zig3270_command_code_t.ERASE_WRITE_ALTERNATE,
   zig3270_command_code_t.WRITE,
   zig3270_command_code_t.ERASE_ALL_UNPROTECTED,
   zig3270_command_code_t.READ_BUFFER,
   zig3270_command_code_t.READ_MODIFIED,
   zig3270_command_code_t.READ_MODIFIED_ALL,
   zig3270_command_code_t.SEARCH_FOR_STRING,
   zig3270_command_code_t.SELECTIVE_ERASE_WRITE]

/-- C9 (counterexample): the claim that the command-code type defines
exactly the eight opcode values 0x01, 0x02, 0x05, 0x06, 0x0d, 0x0f, 0x34,
0x6e with each distinct command carrying its own value is false on the
header: `ZIG3270_CMD_SELECTIVE_ERASE_WRITE` is a ninth value, 0x80, outside
the claimed set, and the distinct commands `WRITE` and
`WRITE_STRUCTURED_FIELD` share the single value 0x01. -/
theorem c9_counterexample :
    commandCodeValue zig3270_command_code_t.SELECTIVE_ERASE_WRITE = 0x80 ∧
    (0x80 : Nat) ∉ [0x01, 0x02, 0x05, 0x06, 0x0d, 0x0f, 0x34, 0x6e] ∧
    zig3270_command_code_t.WRITE ≠
      zig3270_command_code_t.WRITE_STRUCTURED_FIELD ∧
    commandCodeValue zig3270_command_code_t.WRITE =
      commandCodeValue zig3270_command_code_t.WRITE_STRUCTURED_FIELD := by
  decide

/-- C9 (amended): the command-code type defines ten named commands over
exactly the nine distinct opcode values 0x01, 0x05, 0x0d, 0x0f, 0x02,
0x06, 0x6e, 0x34 and 0x80, with 0x01 shared by `WRITE` and
`WRITE_STRUCTURED_FIELD` — so not every distinct command carries its own
opcode value. -/
theorem c9_command_codes :
    (∀ code : zig3270_command_code_t, code ∈ commandCodes) ∧
    commandCodes.map commandCodeValue =
      [0x01, 0x05, 0x0d, 0x01, 0x0f, 0x02, 0x06, 0x6e, 0x34, 0x80] ∧
    (commandCodes.map commandCodeValue).dedup =
      [0x05, 0x0d, 0x01, 0x0f, 0x02, 0x06, 0x6e, 0x34, 0x80] ∧
    commandCodeValue zig3270_command_code_t.WRITE =
      commandCodeValue zig3270_command_code_t.WRITE_STRUCTURED_FIELD := by
  refine ⟨fun code => ?_, by decide, by decide, rfl⟩
  cases code <;> simp [commandCodes]

end Zig3270
